import Mathlib

/-!
# Verification of the dumpproxy repository

Shallow embedding of the two Go source files of `olomix/dumpproxy`:

* `part_000` — the reference proxy: `proxy`, `processResponseHeaders`,
  `processResponseBody`, `fname`, `extractAddr`;
* `main.go` — the later variant whose `proxy` allocates the capture
  name only after the response has been relayed.

Go byte strings are modelled as `List Nat`, Go errors as `Nat` codes
(`Option Nat` = nil / non-nil error), and the filesystem visible to the
name allocator as a list of existing file names plus oracles for
creation and close failures.
-/

set_option autoImplicit false

namespace Dumpproxy

/-! ## The response-body relay loop (`processResponseBody`, part_000 lines 202-232)

The Go loop reads into a 16384-byte buffer.  Each `Read` call returns a
chunk `buf[:n]` and one of: a nil error, `io.EOF`, or another error.
Each `Write` call on a sink returns a count and an optional error.  One
loop iteration is therefore determined by a `BodyStep`: what the read
returned and what the two writes would return for the chunk of that
iteration. -/

/-- Result of one `respBody.Read(buf)` call: nil error, `io.EOF`, or
another error with code `c`. -/
inductive RdRes where
  | ok : RdRes
  | eof : RdRes
  | err (c : Nat) : RdRes
deriving DecidableEq, Repr

/-- One iteration of the relay loop: the chunk `buf[:n]` the read
produced, the read error, and the `(count, error)` results the two
sinks report for writing that chunk (`n2` for the capture file, `n3`
for the client). -/
structure BodyStep where
  chunk : List Nat
  rd : RdRes
  fileRet : Nat
  fileErr : Option Nat
  clientRet : Nat
  clientErr : Option Nat
deriving DecidableEq, Repr

/-- How the loop terminated. -/
inductive BodyOutcome where
  | done : BodyOutcome
  | readFailed (c : Nat) : BodyOutcome
  | writeFailed (c : Nat) : BodyOutcome
  | panicked (msg : String) : BodyOutcome
  | incomplete : BodyOutcome
deriving DecidableEq, Repr

/-- Bytes received by the capture file and by the client, and how the
loop exited. -/
structure BodyResult where
  fileBytes : List Nat
  clientBytes : List Nat
  outcome : BodyOutcome
deriving DecidableEq, Repr

/-- Transfer buffer size: `make([]byte, 16384)` in `processResponseBody`. -/
def respBodyBufSize : Nat := 16384

/-- Prepend the bytes of an iteration to a later result. -/
def prependBytes (f c : List Nat) (r : BodyResult) : BodyResult :=
  ⟨f ++ r.fileBytes, c ++ r.clientBytes, r.outcome⟩

/-- The loop of `processResponseBody` (part_000 lines 202-232), run on a
trace of read/write behaviours.  Mirrors the Go control flow: a non-EOF
read error returns immediately; otherwise the chunk is written to the
capture file (error → return; short count → panic), then to the client
(error → return; short count → panic); after both writes, EOF breaks the
loop and a nil read error continues it.  A sink that reports an error
has still consumed the count of bytes it returned (`chunk.take ret`).
An exhausted trace (`[]`) marks an incomplete run, not a loop exit. -/
def procBody : List BodyStep → BodyResult
  | [] => ⟨[], [], .incomplete⟩
  | s :: rest =>
    match s.rd with
    | .err c => ⟨[], [], .readFailed c⟩
    | .ok =>
      match s.fileErr with
      | some e => ⟨s.chunk.take s.fileRet, [], .writeFailed e⟩
      | none =>
        if s.fileRet ≠ s.chunk.length then
          ⟨s.chunk.take s.fileRet, [], .panicked "[assertion] n2 != n"⟩
        else
          match s.clientErr with
          | some e => ⟨s.chunk, s.chunk.take s.clientRet, .writeFailed e⟩
          | none =>
            if s.clientRet ≠ s.chunk.length then
              ⟨s.chunk, s.chunk.take s.clientRet, .panicked "[assertion] n3 != n"⟩
            else
              prependBytes s.chunk s.chunk (procBody rest)
    | .eof =>
      match s.fileErr with
      | some e => ⟨s.chunk.take s.fileRet, [], .writeFailed e⟩
      | none =>
        if s.fileRet ≠ s.chunk.length then
          ⟨s.chunk.take s.fileRet, [], .panicked "[assertion] n2 != n"⟩
        else
          match s.clientErr with
          | some e => ⟨s.chunk, s.chunk.take s.clientRet, .writeFailed e⟩
          | none =>
            if s.clientRet ≠ s.chunk.length then
              ⟨s.chunk, s.chunk.take s.clientRet, .panicked "[assertion] n3 != n"⟩
            else
              ⟨s.chunk, s.chunk, .done⟩

/-- On every exit of the relay loop the client has received a prefix of
what the capture file received: each chunk goes to the file first. -/
theorem procBody_client_pfx_file (steps : List BodyStep) :
    (procBody steps).clientBytes <+: (procBody steps).fileBytes := by
  induction steps with
  | nil => exact List.nil_prefix
  | cons s rest ih =>
    rcases s with ⟨chunk, rd, fr, fe, cr, ce⟩
    cases rd with
    | err c => exact List.nil_prefix
    | ok =>
      cases fe with
      | some e => exact List.nil_prefix
      | none =>
        by_cases hf : fr ≠ chunk.length
        · simp [procBody, hf]
        · cases ce with
          | some e =>
            simp [procBody, hf]
            exact List.take_prefix _ _
          | none =>
            by_cases hc : cr ≠ chunk.length
            · simp [procBody, hf, hc]
              exact List.take_prefix _ _
            · simp [procBody, hf, hc, prependBytes]
              exact ih
    | eof =>
      cases fe with
      | some e => exact List.nil_prefix
      | none =>
        by_cases hf : fr ≠ chunk.length
        · simp [procBody, hf]
        · cases ce with
          | some e =>
            simp [procBody, hf]
            exact List.take_prefix _ _
          | none =>
            by_cases hc : cr ≠ chunk.length
            · simp [procBody, hf, hc]
              exact List.take_prefix _ _
            · simp [procBody, hf, hc]

/-- On a successful exit (`done`) the two outputs are equal. -/
theorem procBody_done_eq (steps : List BodyStep)
    (h : (procBody steps).outcome = .done) :
    (procBody steps).fileBytes = (procBody steps).clientBytes := by
  induction steps with
  | nil => simp [procBody] at h
  | cons s rest ih =>
    rcases s with ⟨chunk, rd, fr, fe, cr, ce⟩
    cases rd with
    | err c => simp [procBody] at h
    | ok =>
      cases fe with
      | some e => simp [procBody] at h
      | none =>
        by_cases hf : fr ≠ chunk.length
        · simp [procBody, hf] at h
        · cases ce with
          | some e => simp [procBody, hf] at h
          | none =>
            by_cases hc : cr ≠ chunk.length
            · simp [procBody, hf, hc] at h
            · simp only [procBody, hf, hc, if_neg, ite_false, prependBytes] at h ⊢
              simp only [not_not] at hf hc
              simp [procBody, hf, hc, prependBytes] at h ⊢
              exact ih h
    | eof =>
      cases fe with
      | some e => simp [procBody] at h
      | none =>
        by_cases hf : fr ≠ chunk.length
        · simp [procBody, hf] at h
        · cases ce with
          | some e => simp [procBody, hf] at h
          | none =>
            by_cases hc : cr ≠ chunk.length
            · simp [procBody, hf, hc] at h
            · simp [procBody, hf, hc]

/-- A fully successful non-final iteration: the read returned a chunk
with a nil error and both sinks wrote it in full without error. -/
def fullOkStep (s : BodyStep) : Prop :=
  s.rd = .ok ∧ s.fileErr = none ∧ s.fileRet = s.chunk.length ∧
    s.clientErr = none ∧ s.clientRet = s.chunk.length

instance (s : BodyStep) : Decidable (fullOkStep s) := by
  unfold fullOkStep; infer_instance

/-- Running the loop on fully successful iterations followed by a tail
trace prepends the concatenation of their chunks to both outputs. -/
theorem procBody_append_fullOk (pre rest : List BodyStep)
    (h : ∀ t ∈ pre, fullOkStep t) :
    procBody (pre ++ rest) =
      ⟨(pre.map BodyStep.chunk).flatten ++ (procBody rest).fileBytes,
       (pre.map BodyStep.chunk).flatten ++ (procBody rest).clientBytes,
       (procBody rest).outcome⟩ := by
  induction pre with
  | nil => simp
  | cons s pre ih =>
    obtain ⟨hrd, hfe, hfr, hce, hcr⟩ := h s (List.mem_cons_self s pre)
    have ih' := ih (fun t ht => h t (List.mem_cons_of_mem s ht))
    rcases s with ⟨chunk, rd, fr, fe, cr, ce⟩
    simp only at hrd hfe hfr hce hcr
    subst hrd hfe hfr hce hcr
    simp [procBody, prependBytes, ih']

/-- If every sink write in the trace reports the full chunk length
whenever it reports no error, the two assertion branches are
unreachable: the loop never panics. -/
theorem procBody_no_short_no_panic (steps : List BodyStep)
    (h : ∀ s ∈ steps, (s.fileErr = none → s.fileRet = s.chunk.length) ∧
      (s.clientErr = none → s.clientRet = s.chunk.length)) :
    ∀ msg, (procBody steps).outcome ≠ .panicked msg := by
  induction steps with
  | nil => intro msg; simp [procBody]
  | cons s rest ih =>
    have hs := h s (List.mem_cons_self s rest)
    have hrest := ih (fun t ht => h t (List.mem_cons_of_mem s ht))
    rcases s with ⟨chunk, rd, fr, fe, cr, ce⟩
    intro msg
    cases rd with
    | err c => simp [procBody]
    | ok =>
      cases fe with
      | some e => simp [procBody]
      | none =>
        have hfr : fr = chunk.length := hs.1 rfl
        cases ce with
        | some e => simp [procBody, hfr]
        | none =>
          have hcr : cr = chunk.length := hs.2 rfl
          simp [procBody, hfr, hcr, prependBytes]
          exact hrest msg
    | eof =>
      cases fe with
      | some e => simp [procBody]
      | none =>
        have hfr : fr = chunk.length := hs.1 rfl
        cases ce with
        | some e => simp [procBody, hfr]
        | none =>
          have hcr : cr = chunk.length := hs.2 rfl
          simp [procBody, hfr, hcr]

/-- C1: for every request that reaches the response-body relay stage,
the bytes written to the response-body capture file agree with the
bytes written to the client: each chunk goes in full to the capture
file first and then to the client, so on a successful exit the two
byte sequences are equal, and on any other exit the client's bytes are
a prefix of the capture file's bytes (equal up to the point of
abort). -/
theorem C1_response_capture_matches_client (steps : List BodyStep) :
    (procBody steps).clientBytes <+: (procBody steps).fileBytes ∧
      ((procBody steps).outcome = .done →
        (procBody steps).fileBytes = (procBody steps).clientBytes) :=
  ⟨procBody_client_pfx_file steps, procBody_done_eq steps⟩

/-- Concrete run used by the C1 witness: one full chunk, then EOF with
a trailing chunk. -/
def c1Steps : List BodyStep :=
  [⟨[1, 2], .ok, 2, none, 2, none⟩, ⟨[3], .eof, 1, none, 1, none⟩]

theorem C1_witness :
    (procBody c1Steps).clientBytes <+: (procBody c1Steps).fileBytes ∧
      (procBody c1Steps).fileBytes = (procBody c1Steps).clientBytes :=
  ⟨(C1_response_capture_matches_client c1Steps).1,
   (C1_response_capture_matches_client c1Steps).2 (by decide)⟩

/-- C10: a read that returns n > 0 bytes together with end-of-stream
still has its final chunk written to both the capture file and the
client before the loop exits successfully: nothing delivered alongside
EOF is lost from either output. -/
theorem C10_eof_chunk_not_lost (pre : List BodyStep) (last : BodyStep)
    (hpre : ∀ t ∈ pre, fullOkStep t)
    (hrd : last.rd = .eof)
    (hn : last.chunk ≠ [])
    (hfe : last.fileErr = none) (hfr : last.fileRet = last.chunk.length)
    (hce : last.clientErr = none) (hcr : last.clientRet = last.chunk.length) :
    procBody (pre ++ [last]) =
      ⟨(pre.map BodyStep.chunk).flatten ++ last.chunk,
       (pre.map BodyStep.chunk).flatten ++ last.chunk, .done⟩ := by
  have h1 : procBody [last] = ⟨last.chunk, last.chunk, .done⟩ := by
    rcases last with ⟨chunk, rd, fr, fe, cr, ce⟩
    simp only at hrd hfe hfr hce hcr
    subst hrd hfe hfr hce hcr
    simp [procBody]
  rw [procBody_append_fullOk pre [last] hpre, h1]

theorem C10_witness :
    procBody [⟨[1, 2], .ok, 2, none, 2, none⟩, ⟨[7], .eof, 1, none, 1, none⟩] =
      ⟨[1, 2, 7], [1, 2, 7], .done⟩ := by
  have h := C10_eof_chunk_not_lost
    [⟨[1, 2], .ok, 2, none, 2, none⟩] ⟨[7], .eof, 1, none, 1, none⟩
    (by decide) (by decide) (by decide) (by decide) (by decide)
    (by decide) (by decide)
  simpa using h

/-- C8: the relay loop uses a 16384-byte transfer buffer, writes each
chunk first to the capture sink and then to the client, and checks both
counts.  (i) The buffer size constant is 16384.  (ii) If neither sink
ever short-writes, the assertion branches are unreachable (no panic).
(iii) A short capture-file write with no error at a reachable step is a
panic (`n2 != n`), not an error return.  (iv) A short client write with
no error, after the capture-file write went through in full, is equally
a panic (`n3 != n`), not an error return.  (v) A non-EOF read error at
a reachable step propagates to the caller unchanged. -/
theorem C8_tee_loop_invariants (steps : List BodyStep) :
    respBodyBufSize = 16384 ∧
    ((∀ s ∈ steps, (s.fileErr = none → s.fileRet = s.chunk.length) ∧
        (s.clientErr = none → s.clientRet = s.chunk.length)) →
      ∀ msg, (procBody steps).outcome ≠ .panicked msg) ∧
    (∀ pre s rest, steps = pre ++ s :: rest → (∀ t ∈ pre, fullOkStep t) →
      s.fileErr = none → s.fileRet ≠ s.chunk.length → (∀ c, s.rd ≠ .err c) →
      (procBody steps).outcome = .panicked "[assertion] n2 != n") ∧
    (∀ pre s rest, steps = pre ++ s :: rest → (∀ t ∈ pre, fullOkStep t) →
      s.fileErr = none → s.fileRet = s.chunk.length →
      s.clientErr = none → s.clientRet ≠ s.chunk.length →
      (∀ c, s.rd ≠ .err c) →
      (procBody steps).outcome = .panicked "[assertion] n3 != n") ∧
    (∀ pre s rest c, steps = pre ++ s :: rest → (∀ t ∈ pre, fullOkStep t) →
      s.rd = .err c → (procBody steps).outcome = .readFailed c) := by
  refine ⟨rfl, procBody_no_short_no_panic steps, ?_, ?_, ?_⟩
  · intro pre s rest hsteps hpre hfe hfr hrd
    subst hsteps
    rw [procBody_append_fullOk pre (s :: rest) hpre]
    rcases s with ⟨chunk, rd, fr, fe, cr, ce⟩
    simp only at hfe hfr hrd
    subst hfe
    cases rd with
    | err c => exact absurd rfl (hrd c)
    | ok => simp [procBody, hfr]
    | eof => simp [procBody, hfr]
  · intro pre s rest hsteps hpre hfe hfr hce hcr hrd
    subst hsteps
    rw [procBody_append_fullOk pre (s :: rest) hpre]
    rcases s with ⟨chunk, rd, fr, fe, cr, ce⟩
    simp only at hfe hfr hce hcr hrd
    subst hfe hfr hce
    cases rd with
    | err c => exact absurd rfl (hrd c)
    | ok => simp [procBody, hcr]
    | eof => simp [procBody, hcr]
  · intro pre s rest c hsteps hpre hrd
    subst hsteps
    rw [procBody_append_fullOk pre (s :: rest) hpre]
    rcases s with ⟨chunk, rd, fr, fe, cr, ce⟩
    simp only at hrd
    subst hrd
    simp [procBody]

/-- Concrete trace used by the C8 witness: a read error after one full
chunk. -/
def c8Steps : List BodyStep :=
  [⟨[1, 2], .ok, 2, none, 2, none⟩, ⟨[], .err 5, 0, none, 0, none⟩]

/-- Concrete trace in which the client sink acknowledges only 1 of 2
bytes without reporting an error. -/
def c8ShortSteps : List BodyStep :=
  [⟨[1, 2], .ok, 2, none, 1, none⟩]

theorem C8_witness :
    respBodyBufSize = 16384 ∧
      (procBody c8Steps).outcome = .readFailed 5 ∧
      (procBody c8ShortSteps).outcome = .panicked "[assertion] n3 != n" :=
  ⟨(C8_tee_loop_invariants c8Steps).1,
   (C8_tee_loop_invariants c8Steps).2.2.2.2
     [⟨[1, 2], .ok, 2, none, 2, none⟩] ⟨[], .err 5, 0, none, 0, none⟩ [] 5
     rfl (by decide) rfl,
   (C8_tee_loop_invariants c8ShortSteps).2.2.2.1
     [] ⟨[1, 2], .ok, 2, none, 1, none⟩ []
     rfl (by decide) rfl rfl rfl (by decide)
     (by intro c h; exact RdRes.noConfusion h)⟩

/-! ## The capture-name allocator (`fname`, part_000 lines 237-254 and main.go lines 91-108)

Both variants contain the same `fname` function.  It joins the capture
directory and a second-resolution timestamp into `datePrefix`, then
starting from counter 0 tries to create `datePrefix + itoa(idx) +
".request_headers"` with `O_CREATE|O_EXCL`.  `os.IsExist` failures
increment the counter and retry; any other creation failure panics; on
success it closes the sentinel and returns the prefix together with the
close error.

The directory is modelled as the list of existing names plus two
oracles: `createErr name` is the non-EEXIST error `OpenFile` would
report for a name that does not exist yet (none = creation succeeds),
and `closeErr name` is the error `Close` would report for the newly
created sentinel.  The unbounded `for` loop takes explicit fuel; `spin`
marks fuel exhaustion (the Go loop still running), not a loop exit. -/

/-- Directory state and failure oracles seen by `fname`. -/
structure FS where
  files : List String
  createErr : String → Option Nat
  closeErr : String → Option Nat

/-- The sentinel file name reserving a capture name: the Go code
appends the literal `".request_headers"` suffix. -/
def sentinel (p : String) : String := p ++ ".request_headers"

/-- Result of `fname`: a returned prefix with nil error, a returned
prefix with a non-nil (sentinel-close) error, a panic, or fuel
exhaustion. -/
inductive FnameOut where
  | ok (p : String) : FnameOut
  | ioErr (p : String) (e : Nat) : FnameOut
  | panicked (e : Nat) : FnameOut
  | spin : FnameOut
deriving DecidableEq, Repr

/-- The retry loop of `fname`, returning its outcome and the directory
contents afterwards.  Mirrors the Go loop body: build the candidate
prefix from `datePrefix` and the counter, try to create its sentinel
exclusively; if the name already exists, retry with the counter
incremented; on any other creation error, panic; otherwise the file is
created and the prefix is returned together with the close result. -/
def fnameLoop (fs : FS) (dp : String) : Nat → Nat → FnameOut × List String
  | 0, _ => (.spin, fs.files)
  | fuel + 1, idx =>
    if sentinel (dp ++ Nat.repr idx) ∈ fs.files then
      fnameLoop fs dp fuel (idx + 1)
    else
      match fs.createErr (sentinel (dp ++ Nat.repr idx)) with
      | some e => (.panicked e, fs.files)
      | none =>
        match fs.closeErr (sentinel (dp ++ Nat.repr idx)) with
        | some e =>
          (.ioErr (dp ++ Nat.repr idx) e, sentinel (dp ++ Nat.repr idx) :: fs.files)
        | none =>
          (.ok (dp ++ Nat.repr idx), sentinel (dp ++ Nat.repr idx) :: fs.files)

/-- A successful allocation returns a prefix whose sentinel did not
exist before, adds exactly that sentinel to the directory, and the
prefix is the date part followed by a counter at least the start
index. -/
theorem fnameLoop_ok_spec (fs : FS) (dp : String) :
    ∀ fuel idx p fl, fnameLoop fs dp fuel idx = (.ok p, fl) →
      sentinel p ∉ fs.files ∧ fl = sentinel p :: fs.files ∧
        ∃ j, idx ≤ j ∧ p = dp ++ Nat.repr j := by
  intro fuel
  induction fuel with
  | zero => intro idx p fl h; simp [fnameLoop] at h
  | succ fuel ih =>
    intro idx p fl h
    by_cases hmem : sentinel (dp ++ Nat.repr idx) ∈ fs.files
    · rw [fnameLoop, if_pos hmem] at h
      obtain ⟨h1, h2, j, hj, hp⟩ := ih (idx + 1) p fl h
      exact ⟨h1, h2, j, Nat.le_of_succ_le hj, hp⟩
    · rw [fnameLoop, if_neg hmem] at h
      cases hce : fs.createErr (sentinel (dp ++ Nat.repr idx)) with
      | some e => rw [hce] at h; simp at h
      | none =>
        rw [hce] at h
        cases hcl : fs.closeErr (sentinel (dp ++ Nat.repr idx)) with
        | some e => rw [hcl] at h; simp at h
        | none =>
          rw [hcl] at h
          obtain ⟨hp, hfl⟩ := Prod.mk.injEq .. ▸ h
          cases hp
          exact ⟨hmem, hfl.symm ▸ rfl, idx, Nat.le_refl idx, rfl⟩

/-- An allocation that returns a non-nil error does so only because
closing the freshly created sentinel failed: the sentinel was created
(the prefix is reserved) and the creation itself reported no error. -/
theorem fnameLoop_ioErr_spec (fs : FS) (dp : String) :
    ∀ fuel idx p e fl, fnameLoop fs dp fuel idx = (.ioErr p e, fl) →
      fs.createErr (sentinel p) = none ∧ fs.closeErr (sentinel p) = some e ∧
        sentinel p ∉ fs.files ∧ fl = sentinel p :: fs.files ∧
        ∃ j, idx ≤ j ∧ p = dp ++ Nat.repr j := by
  intro fuel
  induction fuel with
  | zero => intro idx p e fl h; simp [fnameLoop] at h
  | succ fuel ih =>
    intro idx p e fl h
    by_cases hmem : sentinel (dp ++ Nat.repr idx) ∈ fs.files
    · rw [fnameLoop, if_pos hmem] at h
      obtain ⟨h1, h2, h3, h4, j, hj, hp⟩ := ih (idx + 1) p e fl h
      exact ⟨h1, h2, h3, h4, j, Nat.le_of_succ_le hj, hp⟩
    · rw [fnameLoop, if_neg hmem] at h
      cases hce : fs.createErr (sentinel (dp ++ Nat.repr idx)) with
      | some e2 => rw [hce] at h; simp at h
      | none =>
        rw [hce] at h
        cases hcl : fs.closeErr (sentinel (dp ++ Nat.repr idx)) with
        | some e2 =>
          rw [hcl] at h
          obtain ⟨hout, hfl⟩ := Prod.mk.injEq .. ▸ h
          obtain ⟨hp, he⟩ := FnameOut.ioErr.injEq .. ▸ hout
          cases hp; cases he
          exact ⟨hce, hcl, hmem, hfl.symm ▸ rfl, idx, Nat.le_refl idx, rfl⟩
        | none => rw [hcl] at h; simp at h

/-- A panic of the allocator leaves the directory unchanged and is
caused by a non-EEXIST creation error on some candidate sentinel. -/
theorem fnameLoop_panicked_spec (fs : FS) (dp : String) :
    ∀ fuel idx e fl, fnameLoop fs dp fuel idx = (.panicked e, fl) →
      fl = fs.files ∧ ∃ j, idx ≤ j ∧
        sentinel (dp ++ Nat.repr j) ∉ fs.files ∧
        fs.createErr (sentinel (dp ++ Nat.repr j)) = some e := by
  intro fuel
  induction fuel with
  | zero => intro idx e fl h; simp [fnameLoop] at h
  | succ fuel ih =>
    intro idx e fl h
    by_cases hmem : sentinel (dp ++ Nat.repr idx) ∈ fs.files
    · rw [fnameLoop, if_pos hmem] at h
      obtain ⟨h1, j, hj, hjm, hje⟩ := ih (idx + 1) e fl h
      exact ⟨h1, j, Nat.le_of_succ_le hj, hjm, hje⟩
    · rw [fnameLoop, if_neg hmem] at h
      cases hce : fs.createErr (sentinel (dp ++ Nat.repr idx)) with
      | some e2 =>
        rw [hce] at h
        obtain ⟨hout, hfl⟩ := Prod.mk.injEq .. ▸ h
        obtain he := FnameOut.panicked.injEq .. ▸ hout
        cases he
        exact ⟨hfl.symm, idx, Nat.le_refl idx, hmem, hce⟩
      | none =>
        rw [hce] at h
        cases hcl : fs.closeErr (sentinel (dp ++ Nat.repr idx)) with
        | some e2 => rw [hcl] at h; simp at h
        | none => rw [hcl] at h; simp at h

/-- C2: capture prefixes of successful allocations are distinct and
never reused.  If one allocation succeeds with prefix p₁ (creating its
sentinel file), and a later allocation runs against any directory state
that still contains the files left by the first (files are never
deleted), then the later allocation cannot return p₁ again — even if
both calls share the same second-resolution date part, because the
create-exclusive sentinel is both the uniqueness test and the
reservation. -/
theorem C2_alloc_prefixes_distinct
    (fs₁ fs₂ : FS) (dp₁ dp₂ : String) (fuel₁ fuel₂ : Nat)
    (p₁ p₂ : String) (fl₁ fl₂ : List String)
    (h₁ : fnameLoop fs₁ dp₁ fuel₁ 0 = (.ok p₁, fl₁))
    (hmono : ∀ x ∈ fl₁, x ∈ fs₂.files)
    (h₂ : fnameLoop fs₂ dp₂ fuel₂ 0 = (.ok p₂, fl₂)) :
    p₂ ≠ p₁ := by
  obtain ⟨-, hfl₁, -⟩ := fnameLoop_ok_spec fs₁ dp₁ fuel₁ 0 p₁ fl₁ h₁
  obtain ⟨hnm, -, -⟩ := fnameLoop_ok_spec fs₂ dp₂ fuel₂ 0 p₂ fl₂ h₂
  intro he
  apply hnm
  rw [he]
  exact hmono _ (hfl₁ ▸ List.mem_cons_self _ _)

/-- Empty directory used by the C2 witness. -/
def c2Fs1 : FS := ⟨[], fun _ => none, fun _ => none⟩

/-- Directory already holding the first allocation's sentinel, used by
the C2 witness. -/
def c2Fs2 : FS := ⟨["d-0.request_headers"], fun _ => none, fun _ => none⟩

theorem C2_witness : ("d-" ++ Nat.repr 1) ≠ ("d-" ++ Nat.repr 0) :=
  C2_alloc_prefixes_distinct c2Fs1 c2Fs2 "d-" "d-" 1 2
    ("d-" ++ Nat.repr 0) ("d-" ++ Nat.repr 1)
    ["d-0.request_headers"] ["d-1.request_headers", "d-0.request_headers"]
    (by decide) (by decide) (by decide)

/-- Oracle making the first creation attempt fail with a non-EEXIST
error (e.g. a permission error), used to exercise the panic branch. -/
def c7Fs : FS :=
  ⟨[], fun n => if n = "d-0.request_headers" then some 13 else none, fun _ => none⟩

/-- C7 counterexample: on a creation failure other than "file already
exists" (here error 13 on a name that does not exist), `fname` panics —
it does not return an IOError to the caller, so the caller never gets
to map the failure to an Internal-Error response. -/
theorem C7_counterexample :
    fnameLoop c7Fs "d-" 1 0 = (.panicked 13, []) ∧
      ∀ p e, (fnameLoop c7Fs "d-" 1 0).1 ≠ FnameOut.ioErr p e := by
  refine ⟨by decide, ?_⟩
  intro p e h
  rw [show (fnameLoop c7Fs "d-" 1 0).1 = FnameOut.panicked 13 from by decide] at h
  exact FnameOut.noConfusion h

/-- C7 (amended): the allocator retries with an incremented counter on
a "file already exists" failure, but on any other creation failure it
panics (the request dies by panic, not by an error return); the only
IOError it ever returns to the caller arises from closing the already
created sentinel, with the prefix reserved. -/
theorem C7_alloc_failure_modes (fs : FS) (dp : String) (fuel idx : Nat)
    (p : String) (e : Nat) (fl : List String) :
    (fnameLoop fs dp fuel idx = (.ioErr p e, fl) →
      fs.createErr (sentinel p) = none ∧ fs.closeErr (sentinel p) = some e ∧
        sentinel p ∉ fs.files ∧ fl = sentinel p :: fs.files) ∧
    (fnameLoop fs dp fuel idx = (.panicked e, fl) →
      fl = fs.files ∧ ∃ j, idx ≤ j ∧
        fs.createErr (sentinel (dp ++ Nat.repr j)) = some e) ∧
    (sentinel (dp ++ Nat.repr idx) ∈ fs.files →
      fnameLoop fs dp (fuel + 1) idx = fnameLoop fs dp fuel (idx + 1)) := by
  refine ⟨?_, ?_, ?_⟩
  · intro h
    obtain ⟨h1, h2, h3, h4, -⟩ := fnameLoop_ioErr_spec fs dp fuel idx p e fl h
    exact ⟨h1, h2, h3, h4⟩
  · intro h
    obtain ⟨h1, j, hj, -, hje⟩ := fnameLoop_panicked_spec fs dp fuel idx e fl h
    exact ⟨h1, j, hj, hje⟩
  · intro hmem
    rw [fnameLoop, if_pos hmem]

/-- Oracle whose sentinel close fails with error 9, used by the C7
witness. -/
def c7wFs : FS := ⟨[], fun _ => none, fun _ => some 9⟩

theorem C7_witness :
    c7wFs.createErr (sentinel "d-0") = none ∧
      c7wFs.closeErr (sentinel "d-0") = some 9 ∧
      sentinel "d-0" ∉ c7wFs.files ∧
      ["d-0.request_headers"] = sentinel "d-0" :: c7wFs.files :=
  (C7_alloc_failure_modes c7wFs "d-" 1 0 "d-0" 9 ["d-0.request_headers"]).1
    (by decide)

/-! ## Header copying (part_000 lines 125-135 and 176-184)

Go's `http.Header` is a map from key to slice of values.  Both copy
loops have the same shape: `for header, values := range src { for _,
value := range values { dst.Add(header, value) } }`, where `Add`
appends the value to the slice at the key (creating it if absent).  A
header map is modelled as an association list with distinct keys, in
which `Add` appends a fresh key at the end.  Keys coming from a parsed
request or response are already in canonical form, so `Add`'s key
canonicalisation is the identity on them. -/

/-- A header multimap: keys with their ordered value lists. -/
abbrev HeaderMap : Type := List (String × List String)

/-- `http.Header.Add`: append the value to the slice at the key, or
bind a fresh key to a one-element slice. -/
def headerAdd : HeaderMap → String → String → HeaderMap
  | [], k, v => [(k, [v])]
  | (k₀, vs) :: rest, k, v =>
    if k₀ = k then (k₀, vs ++ [v]) :: rest
    else (k₀, vs) :: headerAdd rest k v

/-- Map lookup: the value slice at a key, nil when absent. -/
def headerGet : HeaderMap → String → List String
  | [], _ => []
  | (k₀, vs) :: rest, k => if k₀ = k then vs else headerGet rest k

/-- Inner loop: add every value of one key in order. -/
def addValues (h : HeaderMap) (k : String) (vs : List String) : HeaderMap :=
  vs.foldl (fun acc v => headerAdd acc k v) h

/-- Both header-copy loops of the proxy: for each key of `src`, add
each of its values in order to `dst`. -/
def copyHeaders (src : HeaderMap) (dst : HeaderMap) : HeaderMap :=
  src.foldl (fun acc kv => addValues acc kv.1 kv.2) dst

/-- Adding a key absent from the map appends a fresh binding. -/
theorem headerAdd_not_mem (h : HeaderMap) (k v : String)
    (hk : k ∉ h.map Prod.fst) : headerAdd h k v = h ++ [(k, [v])] := by
  induction h with
  | nil => rfl
  | cons kv rest ih =>
    rcases kv with ⟨k₀, vs⟩
    simp only [List.map_cons, List.mem_cons] at hk
    push_neg at hk
    simp only [headerAdd, if_neg (Ne.symm hk.1), List.cons_append]
    rw [ih hk.2]

/-- Adding to the binding sitting at the end of the map appends to its
value slice when the key occurs nowhere earlier. -/
theorem headerAdd_last (dst : HeaderMap) (k : String) (vs : List String)
    (v : String) (hk : k ∉ dst.map Prod.fst) :
    headerAdd (dst ++ [(k, vs)]) k v = dst ++ [(k, vs ++ [v])] := by
  induction dst with
  | nil => simp [headerAdd]
  | cons kv rest ih =>
    rcases kv with ⟨k₀, vs₀⟩
    simp only [List.map_cons, List.mem_cons] at hk
    push_neg at hk
    simp only [List.cons_append, headerAdd, if_neg (Ne.symm hk.1), List.append_eq]
    rw [ih hk.2]

/-- Adding the values `acc ++ vs` of a key absent from `dst`, with
`acc` already in place at the end, extends the final binding. -/
theorem addValues_last (dst : HeaderMap) (k : String) (vs : List String) :
    ∀ acc, k ∉ dst.map Prod.fst →
      addValues (dst ++ [(k, acc)]) k vs = dst ++ [(k, acc ++ vs)] := by
  induction vs with
  | nil => intro acc _; simp [addValues]
  | cons v vs ih =>
    intro acc hk
    simp only [addValues, List.foldl_cons] at ih ⊢
    rw [headerAdd_last dst k acc v hk, ih (acc ++ [v]) hk, List.append_assoc]
    rfl

/-- Adding all values of a fresh key appends one binding carrying the
whole value list, in order. -/
theorem addValues_fresh (dst : HeaderMap) (k : String) (vs : List String)
    (hk : k ∉ dst.map Prod.fst) (hvs : vs ≠ []) :
    addValues dst k vs = dst ++ [(k, vs)] := by
  cases vs with
  | nil => exact absurd rfl hvs
  | cons v vs =>
    simp only [addValues, List.foldl_cons]
    rw [headerAdd_not_mem dst k v hk]
    exact addValues_last dst k vs [v] hk

/-- Copying a header map with distinct keys and nonempty value slices
onto a map containing none of its keys appends it unchanged. -/
theorem copyHeaders_fresh (src : HeaderMap) :
    ∀ dst : HeaderMap, (src.map Prod.fst).Nodup →
      (∀ kv ∈ src, kv.2 ≠ []) →
      (∀ kv ∈ src, kv.1 ∉ dst.map Prod.fst) →
      copyHeaders src dst = dst ++ src := by
  induction src with
  | nil => intro dst _ _ _; simp [copyHeaders]
  | cons kv src ih =>
    intro dst hnd hne hdisj
    rcases kv with ⟨k, vs⟩
    simp only [List.map_cons, List.nodup_cons] at hnd
    simp only [copyHeaders, List.foldl_cons] at ih ⊢
    rw [addValues_fresh dst k vs
      (hdisj (k, vs) (List.mem_cons_self _ _)) (hne (k, vs) (List.mem_cons_self _ _))]
    rw [ih (dst ++ [(k, vs)]) hnd.2 (fun t ht => hne t (List.mem_cons_of_mem _ ht))
      (fun t ht => ?_), List.append_assoc]
    · rfl
    · simp only [List.map_append, List.map_cons, List.map_nil, List.mem_append,
        List.mem_singleton]
      rintro (hmem | hmem)
      · exact hdisj t (List.mem_cons_of_mem _ ht) hmem
      · exact hnd.1 (hmem ▸ List.mem_map_of_mem Prod.fst ht)

/-- C9: copying a header multimap with the proxy's nested Add loop —
the same loop shape is used inbound→outbound (part_000 lines 125-135)
and upstream→client (lines 176-184) — preserves the multimap exactly:
the result of copying onto an empty header equals the source, so the
multiset of (key, value) pairs, the per-key value order, and the
per-key multiplicities are all unchanged, and every lookup agrees. -/
theorem C9_header_copy_roundtrip (src : HeaderMap)
    (hnd : (src.map Prod.fst).Nodup)
    (hne : ∀ kv ∈ src, kv.2 ≠ []) :
    copyHeaders src [] = src ∧
      ∀ k, headerGet (copyHeaders src []) k = headerGet src k := by
  have h := copyHeaders_fresh src [] hnd hne (by simp)
  simp only [List.nil_append] at h
  exact ⟨h, fun k => by rw [h]⟩

/-- Concrete header map with a duplicate key (two values) used by the
C9 witness. -/
def c9Src : HeaderMap := [("Accept", ["a", "b"]), ("X-Test", ["1"])]

theorem C9_witness :
    copyHeaders c9Src [] = c9Src ∧
      headerGet (copyHeaders c9Src []) "Accept" = headerGet c9Src "Accept" :=
  ⟨(C9_header_copy_roundtrip c9Src (by decide) (by decide)).1,
   (C9_header_copy_roundtrip c9Src (by decide) (by decide)).2 "Accept"⟩

/-! ## Client-address extraction (`extractAddr`, part_000 lines 267-273) -/

/-- `extractAddr`: find the first `':'` (Go `strings.IndexRune`, -1
when absent) and strip from it onward only when its index exceeds 6;
otherwise return the address unchanged. -/
def extractAddr (addr : String) : String :=
  match addr.toList.findIdx? (fun c => c = ':') with
  | some idx => if 6 < idx then String.mk (addr.toList.take idx) else addr
  | none => addr

/-- A prefix built by the allocator is nonempty whenever the date part
is (the Go date part is a nonempty format string joined to the capture
directory). -/
theorem append_repr_ne_empty (dp : String) (j : Nat)
    (hdp : 0 < dp.length) : dp ++ Nat.repr j ≠ "" := by
  intro hemp
  have hlen := congrArg String.length hemp
  rw [String.length_append] at hlen
  simp only [String.length_empty] at hlen
  omega

/-! ## The reference request handler (`proxy`, part_000 lines 55-158)

The handler is a straight-line sequence of fallible steps; its
behaviour on one request is determined by which step fails first.
`ProxyEnv` carries the allocator state and one error slot per fallible
operation, in source order: create the request-body file, build the
outbound request (`http.NewRequest`), create the request-headers file,
write the request line, write the header lines, dispatch
(`httpClient.Do`), then inside `processResponseHeaders` create the
response-headers file, write the status line, write the header lines,
and finally in `processResponseBody` create the response-body file and
run the relay loop.  `whCalls` records every `w.WriteHeader` call in
order; the deferred `log.Printf` fires on every return and on panic
unwinding (but never if a loop is still running). -/

/-- The request fields the handler reads. -/
structure ReqData where
  host : String
  remoteAddr : String
  urlStr : String

/-- One structured `log.Printf` line of the reference handler:
host, extracted client address, status code, URL, capture prefix. -/
structure LogEntry where
  host : String
  addr : String
  status : Nat
  url : String
  fnp : String
deriving DecidableEq, Repr

/-- Failure environment of one request through the reference handler. -/
structure ProxyEnv where
  fs : FS
  datePrefix : String
  fuel : Nat
  reqBodyCreateErr : Option Nat
  newReqErr : Option Nat
  reqHdrCreateErr : Option Nat
  reqLineWriteErr : Option Nat
  reqHdrWriteErr : Option Nat
  doErr : Option Nat
  respStatus : Nat
  respHdrCreateErr : Option Nat
  respStatusLineWriteErr : Option Nat
  respHdrWriteErr : Option Nat
  respBodyCreateErr : Option Nat
  bodySteps : List BodyStep

/-- Observable behaviour of one request: the `WriteHeader` calls in
order, the final value of the `statusCode` variable, the final
`fNamePrefix`, the structured log lines, whether the handler panicked,
and whether it is still looping (`spun`). -/
structure ProxyOut where
  whCalls : List Nat
  statusCode : Nat
  fNamePrefix : String
  logs : List LogEntry
  panicked : Bool
  spun : Bool
deriving DecidableEq, Repr

/-- The deferred log line (part_000 lines 65-77). -/
def mkLog (r : ReqData) (status : Nat) (fnp : String) : LogEntry :=
  ⟨r.host, extractAddr r.remoteAddr, status, r.urlStr, fnp⟩

/-- The reference handler (part_000 lines 55-158).  Each early-return
branch writes its status and leaves the deferred log with the final
`statusCode` and `fNamePrefix` values.  `processResponseHeaders` calls
`WriteHeader(resp.StatusCode)` only after its three fallible writes
succeeded; a later failure in `processResponseBody` makes the handler
call `WriteHeader(500)` a second time. -/
def proxyModel (r : ReqData) (e : ProxyEnv) : ProxyOut :=
  match (fnameLoop e.fs e.datePrefix e.fuel 0).1 with
  | .spin => ⟨[], 0, "", [], false, true⟩
  | .panicked _ => ⟨[], 0, "", [mkLog r 0 ""], true, false⟩
  | .ioErr p _ => ⟨[500], 500, p, [mkLog r 500 p], false, false⟩
  | .ok p =>
    if e.reqBodyCreateErr.isSome then ⟨[500], 500, p, [mkLog r 500 p], false, false⟩
    else if e.newReqErr.isSome then ⟨[502], 502, p, [mkLog r 502 p], false, false⟩
    else if e.reqHdrCreateErr.isSome then ⟨[500], 500, p, [mkLog r 500 p], false, false⟩
    else if e.reqLineWriteErr.isSome then ⟨[500], 500, p, [mkLog r 500 p], false, false⟩
    else if e.reqHdrWriteErr.isSome then ⟨[500], 500, p, [mkLog r 500 p], false, false⟩
    else if e.doErr.isSome then ⟨[502], 502, p, [mkLog r 502 p], false, false⟩
    else if e.respHdrCreateErr.isSome then ⟨[500], 500, p, [mkLog r 500 p], false, false⟩
    else if e.respStatusLineWriteErr.isSome then ⟨[500], 500, p, [mkLog r 500 p], false, false⟩
    else if e.respHdrWriteErr.isSome then ⟨[500], 500, p, [mkLog r 500 p], false, false⟩
    else if e.respBodyCreateErr.isSome then
      ⟨[e.respStatus, 500], 500, p, [mkLog r 500 p], false, false⟩
    else
      match (procBody e.bodySteps).outcome with
      | .done => ⟨[e.respStatus], e.respStatus, p, [mkLog r e.respStatus p], false, false⟩
      | .readFailed _ => ⟨[e.respStatus, 500], 500, p, [mkLog r 500 p], false, false⟩
      | .writeFailed _ => ⟨[e.respStatus, 500], 500, p, [mkLog r 500 p], false, false⟩
      | .panicked _ => ⟨[e.respStatus], e.respStatus, p, [mkLog r e.respStatus p], true, false⟩
      | .incomplete => ⟨[e.respStatus], e.respStatus, p, [], false, true⟩

/-- Request fixture for the concrete runs below. -/
def exReq : ReqData := ⟨"example.test", "127.0.0.1:9999", "/hello"⟩

/-- A directory in which every file operation succeeds. -/
def okFs : FS := ⟨[], fun _ => none, fun _ => none⟩

/-- Environment in which every step succeeds and the upstream answers
200 with a two-byte body. -/
def baseEnv : ProxyEnv :=
  ⟨okFs, "d-", 1, none, none, none, none, none, none, 200,
    none, none, none, none, [⟨[104, 105], .eof, 2, none, 2, none⟩]⟩

/-- Same environment but the upstream body read fails after the
headers (and the 200 status) were already sent. -/
def c3Env : ProxyEnv :=
  { baseEnv with bodySteps := [⟨[], RdRes.err 3, 0, none, 0, none⟩] }

/-- C3 counterexample: when the response-body relay fails after
`processResponseHeaders` already wrote the upstream status (200) to
the client, the handler calls `WriteHeader` a second time with 500 —
two status writes are issued for one request, so the handler does not
write an error status only-if-no-status-was-written-yet. -/
theorem C3_counterexample :
    (proxyModel exReq c3Env).whCalls = [200, 500] ∧
      (proxyModel exReq c3Env).whCalls.length = 2 := by
  exact ⟨by decide, by decide⟩

/-- C3 (amended): the handler issues at most one `WriteHeader` call on
every path except one: when the response-body stage fails after
`processResponseHeaders` succeeded, it issues exactly the two calls
upstream-status then 500.  Since Go's `ResponseWriter` honours only the
first `WriteHeader` call, at most one status line ever reaches the
client, the first call being the upstream status on that path. -/
theorem C3_amended_status_writes (r : ReqData) (e : ProxyEnv) :
    (proxyModel r e).whCalls.length ≤ 1 ∨
      (proxyModel r e).whCalls = [e.respStatus, 500] := by
  unfold proxyModel
  cases (fnameLoop e.fs e.datePrefix e.fuel 0).1 with
  | spin => left; simp
  | panicked er => left; simp
  | ioErr p er => left; simp
  | ok p =>
    by_cases h1 : e.reqBodyCreateErr.isSome
    · left; simp [h1]
    · by_cases h2 : e.newReqErr.isSome
      · left; simp [h1, h2]
      · by_cases h3 : e.reqHdrCreateErr.isSome
        · left; simp [h1, h2, h3]
        · by_cases h4 : e.reqLineWriteErr.isSome
          · left; simp [h1, h2, h3, h4]
          · by_cases h5 : e.reqHdrWriteErr.isSome
            · left; simp [h1, h2, h3, h4, h5]
            · by_cases h6 : e.doErr.isSome
              · left; simp [h1, h2, h3, h4, h5, h6]
              · by_cases h7 : e.respHdrCreateErr.isSome
                · left; simp [h1, h2, h3, h4, h5, h6, h7]
                · by_cases h8 : e.respStatusLineWriteErr.isSome
                  · left; simp [h1, h2, h3, h4, h5, h6, h7, h8]
                  · by_cases h9 : e.respHdrWriteErr.isSome
                    · left; simp [h1, h2, h3, h4, h5, h6, h7, h8, h9]
                    · by_cases h10 : e.respBodyCreateErr.isSome
                      · right
                        simp [h1, h2, h3, h4, h5, h6, h7, h8, h9, h10]
                      · cases hb : (procBody e.bodySteps).outcome <;>
                          simp [h1, h2, h3, h4, h5, h6, h7, h8, h9, h10, hb]

/-- Environment in which building the outbound request
(`http.NewRequest`) fails. -/
def c4Env : ProxyEnv := { baseEnv with newReqErr := some 4 }

/-- C4 counterexample: a local failure of `http.NewRequest` yields
Bad-Gateway (502), not the Internal-Error (500) the claim requires for
local failures building the outbound request (part_000 line 99). -/
theorem C4_counterexample :
    (proxyModel exReq c4Env).statusCode = 502 ∧
      (proxyModel exReq c4Env).statusCode ≠ 500 ∧
      (proxyModel exReq c4Env).whCalls = [502] :=
  ⟨by decide, by decide, by decide⟩

/-- C4 (amended): a transport-level failure of the upstream dispatch
(`httpClient.Do`) yields Bad-Gateway, and when it strikes the log line
carries status 502 together with the non-empty capture prefix; failures
opening capture artifacts (request-body, request-headers,
response-headers, response-body files) yield Internal-Error; but a
failure of `http.NewRequest` also yields Bad-Gateway, contrary to the
original local-failure taxonomy. -/
theorem C4_amended_error_taxonomy (r : ReqData) (e : ProxyEnv) (p : String)
    (fl : List String)
    (hfl : fnameLoop e.fs e.datePrefix e.fuel 0 = (.ok p, fl))
    (hdp : 0 < e.datePrefix.length) :
    (e.reqBodyCreateErr = none → e.newReqErr = none → e.reqHdrCreateErr = none →
      e.reqLineWriteErr = none → e.reqHdrWriteErr = none → e.doErr.isSome = true →
      (proxyModel r e).statusCode = 502 ∧ (proxyModel r e).fNamePrefix = p ∧
        p ≠ "" ∧
        (proxyModel r e).logs =
          [⟨r.host, extractAddr r.remoteAddr, 502, r.urlStr, p⟩]) ∧
    (e.reqBodyCreateErr = none → e.newReqErr.isSome = true →
      (proxyModel r e).statusCode = 502) ∧
    (e.reqBodyCreateErr.isSome = true → (proxyModel r e).statusCode = 500) ∧
    (e.reqBodyCreateErr = none → e.newReqErr = none →
      e.reqHdrCreateErr.isSome = true → (proxyModel r e).statusCode = 500) ∧
    (e.reqBodyCreateErr = none → e.newReqErr = none → e.reqHdrCreateErr = none →
      e.reqLineWriteErr = none → e.reqHdrWriteErr = none → e.doErr = none →
      e.respHdrCreateErr.isSome = true → (proxyModel r e).statusCode = 500) ∧
    (e.reqBodyCreateErr = none → e.newReqErr = none → e.reqHdrCreateErr = none →
      e.reqLineWriteErr = none → e.reqHdrWriteErr = none → e.doErr = none →
      e.respHdrCreateErr = none → e.respStatusLineWriteErr = none →
      e.respHdrWriteErr = none → e.respBodyCreateErr.isSome = true →
      (proxyModel r e).statusCode = 500) := by
  have hp : p ≠ "" := by
    obtain ⟨-, -, j, -, hpj⟩ :=
      fnameLoop_ok_spec e.fs e.datePrefix e.fuel 0 p fl hfl
    exact hpj ▸ append_repr_ne_empty e.datePrefix j hdp
  have ho : (fnameLoop e.fs e.datePrefix e.fuel 0).1 = FnameOut.ok p := by
    rw [hfl]
  refine ⟨?_, ?_, ?_, ?_, ?_, ?_⟩
  · intro a b c d f g
    unfold proxyModel
    simp only [ho]
    simp [a, b, c, d, f, g, mkLog]
    exact hp
  · intro a b
    unfold proxyModel
    simp only [ho]
    simp [a, b]
  · intro a
    unfold proxyModel
    simp only [ho]
    simp [a]
  · intro a b c
    unfold proxyModel
    simp only [ho]
    simp [a, b, c]
  · intro a b c d f g h
    unfold proxyModel
    simp only [ho]
    simp [a, b, c, d, f, g, h]
  · intro a b c d f g h i j k
    unfold proxyModel
    simp only [ho]
    simp [a, b, c, d, f, g, h, i, j, k]

/-- Environment in which the upstream dispatch (`httpClient.Do`)
fails. -/
def c4wEnv : ProxyEnv := { baseEnv with doErr := some 7 }

theorem C4_witness :
    (proxyModel exReq c4wEnv).statusCode = 502 ∧
      (proxyModel exReq c4wEnv).fNamePrefix = "d-" ++ Nat.repr 0 ∧
      ("d-" ++ Nat.repr 0) ≠ "" ∧
      (proxyModel exReq c4wEnv).logs =
        [⟨exReq.host, extractAddr exReq.remoteAddr, 502, exReq.urlStr,
          "d-" ++ Nat.repr 0⟩] :=
  (C4_amended_error_taxonomy exReq c4wEnv ("d-" ++ Nat.repr 0)
    ["d-0.request_headers"] (by decide) (by decide)).1
    rfl rfl rfl rfl rfl rfl

/-- After a successful allocation the handler's final prefix is the
allocated one, and unless a loop is still running the deferred log
fires exactly once with the final status and that prefix. -/
theorem proxyModel_ok_fields (r : ReqData) (e : ProxyEnv) (p : String)
    (ho : (fnameLoop e.fs e.datePrefix e.fuel 0).1 = FnameOut.ok p) :
    (proxyModel r e).fNamePrefix = p ∧
      ((proxyModel r e).spun = true ∧ (proxyModel r e).logs = [] ∨
        (proxyModel r e).logs = [mkLog r (proxyModel r e).statusCode p]) := by
  unfold proxyModel
  simp only [ho]
  by_cases h1 : e.reqBodyCreateErr.isSome
  · simp [h1]
  · by_cases h2 : e.newReqErr.isSome
    · simp [h1, h2]
    · by_cases h3 : e.reqHdrCreateErr.isSome
      · simp [h1, h2, h3]
      · by_cases h4 : e.reqLineWriteErr.isSome
        · simp [h1, h2, h3, h4]
        · by_cases h5 : e.reqHdrWriteErr.isSome
          · simp [h1, h2, h3, h4, h5]
          · by_cases h6 : e.doErr.isSome
            · simp [h1, h2, h3, h4, h5, h6]
            · by_cases h7 : e.respHdrCreateErr.isSome
              · simp [h1, h2, h3, h4, h5, h6, h7]
              · by_cases h8 : e.respStatusLineWriteErr.isSome
                · simp [h1, h2, h3, h4, h5, h6, h7, h8]
                · by_cases h9 : e.respHdrWriteErr.isSome
                  · simp [h1, h2, h3, h4, h5, h6, h7, h8, h9]
                  · by_cases h10 : e.respBodyCreateErr.isSome
                    · simp [h1, h2, h3, h4, h5, h6, h7, h8, h9, h10]
                    · cases hb : (procBody e.bodySteps).outcome <;>
                        simp [h1, h2, h3, h4, h5, h6, h7, h8, h9, h10, hb]

/-- C6 counterexample: `extractAddr` strips the port only when the
first colon sits at an index greater than 6.  The IPv6 remote address
"[::1]:8080" contains a port, its first colon is at index 1, and the
logged client address keeps the port; a dotted-quad IPv4 address is
stripped as the claim expects. -/
theorem C6_counterexample :
    extractAddr "[::1]:8080" = "[::1]:8080" ∧
      "[::1]:8080".toList.findIdx? (fun c => c = ':') = some 1 ∧
      extractAddr "127.0.0.1:9999" = "127.0.0.1" :=
  ⟨by decide, by decide, by decide⟩

/-- C6 (amended): unless the handler is stuck in a loop, every terminal
path of the reference handler emits exactly one structured log line
with the originating host, the client address as transformed by
`extractAddr` (which strips the port only when the first colon index
exceeds 6), the final status code, the request URL, and the final
capture prefix.  The logged prefix is empty iff the allocator panicked;
when the allocator fails because closing the sentinel failed, the
request is answered 500 yet the logged prefix is the non-empty reserved
prefix — so an empty prefix implies allocation failure, but not
conversely. -/
theorem C6_amended_log_line (r : ReqData) (e : ProxyEnv)
    (hspin : (proxyModel r e).spun = false)
    (hdp : 0 < e.datePrefix.length) :
    (proxyModel r e).logs =
      [⟨r.host, extractAddr r.remoteAddr, (proxyModel r e).statusCode,
        r.urlStr, (proxyModel r e).fNamePrefix⟩] ∧
    ((proxyModel r e).fNamePrefix = "" ↔
      ∃ er, (fnameLoop e.fs e.datePrefix e.fuel 0).1 = FnameOut.panicked er) ∧
    (∀ q er, (fnameLoop e.fs e.datePrefix e.fuel 0).1 = FnameOut.ioErr q er →
      (proxyModel r e).statusCode = 500 ∧
        (proxyModel r e).fNamePrefix = q ∧ q ≠ "") := by
  rcases hr : fnameLoop e.fs e.datePrefix e.fuel 0 with ⟨o, fl⟩
  have ho : (fnameLoop e.fs e.datePrefix e.fuel 0).1 = o := by rw [hr]
  cases o with
  | spin =>
    exfalso
    unfold proxyModel at hspin
    simp [ho] at hspin
  | panicked er =>
    refine ⟨?_, ?_, ?_⟩
    · unfold proxyModel
      simp [ho, mkLog]
    · exact iff_of_true (by unfold proxyModel; simp [ho]) ⟨er, rfl⟩
    · intro q er2 h
      exact FnameOut.noConfusion h
  | ioErr q er =>
    have hq : q ≠ "" := by
      obtain ⟨-, -, -, -, j, -, hpj⟩ :=
        fnameLoop_ioErr_spec e.fs e.datePrefix e.fuel 0 q er fl hr
      exact hpj ▸ append_repr_ne_empty e.datePrefix j hdp
    refine ⟨?_, ?_, ?_⟩
    · unfold proxyModel
      simp [ho, mkLog]
    · refine iff_of_false ?_ ?_
      · unfold proxyModel
        simp [ho]
        exact hq
      · rintro ⟨er2, h⟩
        exact FnameOut.noConfusion h
    · intro q2 er2 h
      injection h with hq2 her2
      subst hq2
      refine ⟨?_, ?_, hq⟩
      · unfold proxyModel
        simp [ho]
      · unfold proxyModel
        simp [ho]
  | ok p =>
    have hp : p ≠ "" := by
      obtain ⟨-, -, j, -, hpj⟩ :=
        fnameLoop_ok_spec e.fs e.datePrefix e.fuel 0 p fl hr
      exact hpj ▸ append_repr_ne_empty e.datePrefix j hdp
    obtain ⟨hfnp, hdisj⟩ := proxyModel_ok_fields r e p ho
    rcases hdisj with ⟨hs, -⟩ | hlogs
    · rw [hs] at hspin
      cases hspin
    · refine ⟨?_, ?_, ?_⟩
      · rw [hlogs, hfnp]
        simp [mkLog]
      · refine iff_of_false (by rw [hfnp]; exact hp) ?_
        rintro ⟨er2, h⟩
        exact FnameOut.noConfusion h
      · intro q2 er2 h
        exact FnameOut.noConfusion h

theorem C6_witness :
    (proxyModel exReq baseEnv).logs =
      [⟨exReq.host, extractAddr exReq.remoteAddr,
        (proxyModel exReq baseEnv).statusCode, exReq.urlStr,
        (proxyModel exReq baseEnv).fNamePrefix⟩] :=
  (C6_amended_log_line exReq baseEnv (by decide) (by decide)).1

/-! ## The later variant handler (`proxy`, main.go lines 49-89)

This `proxy` dispatches the request with no capture at all, copies the
upstream headers and status to the client, runs `io.Copy(w, resp.Body)`
and only then — when the copy succeeded — calls `fname()`.  Nothing is
ever written to any capture file: the only file operation in the whole
handler is the create-exclusive sentinel inside `fname`.  Error paths
return before the `log.Printf` line (there is no deferred log in this
variant). -/

/-- One structured log line of the later variant: host, upstream
status, body size, URL, capture prefix (main.go line 88). -/
structure LogEntryV2 where
  host : String
  status : Nat
  bodySize : Nat
  url : String
  fnp : String
deriving DecidableEq, Repr

/-- Failure environment of one request through the later variant:
outbound-request build error, dispatch error, upstream status, the
byte count and error reported by `io.Copy`, and the allocator state. -/
structure V2Env where
  newReqErr : Option Nat
  doErr : Option Nat
  respStatus : Nat
  copied : Nat
  copyErr : Option Nat
  fs : FS
  datePrefix : String
  fuel : Nat

/-- Observable behaviour of the later variant: `WriteHeader` calls,
files created together with their byte contents, whether `fname` was
called, the structured log lines, panic and still-looping flags. -/
structure V2Out where
  whCalls : List Nat
  createdFiles : List (String × List Nat)
  fnameCalled : Bool
  logs : List LogEntryV2
  panicked : Bool
  spun : Bool
deriving DecidableEq, Repr

/-- The later variant handler (main.go lines 49-89).  `fname` runs only
after `io.Copy` returned without error; its sentinel is created empty
and never written to; when `fname` returns a close error the handler
merely logs it and still prints the structured line with the prefix. -/
def proxyV2 (r : ReqData) (e : V2Env) : V2Out :=
  if e.newReqErr.isSome then ⟨[502], [], false, [], false, false⟩
  else if e.doErr.isSome then ⟨[502], [], false, [], false, false⟩
  else if e.copyErr.isSome then ⟨[e.respStatus], [], false, [], false, false⟩
  else
    match (fnameLoop e.fs e.datePrefix e.fuel 0).1 with
    | .spin => ⟨[e.respStatus], [], true, [], false, true⟩
    | .panicked _ => ⟨[e.respStatus], [], true, [], true, false⟩
    | .ioErr p _ =>
      ⟨[e.respStatus], [(sentinel p, [])], true,
        [⟨r.host, e.respStatus, e.copied, r.urlStr, p⟩], false, false⟩
    | .ok p =>
      ⟨[e.respStatus], [(sentinel p, [])], true,
        [⟨r.host, e.respStatus, e.copied, r.urlStr, p⟩], false, false⟩

/-- C5: in the later variant the capture prefix is allocated only after
the response body has been fully copied to the client, and no capture
content is ever written: (i) `fname` runs only when request build,
dispatch and body copy all succeeded; (ii) every file the handler
creates is empty; (iii) either no file is created, or the only file is
the empty sentinel named by the allocated prefix plus
".request_headers", and every structured log line names exactly that
prefix — so the logged prefix names files containing no captured
traffic. -/
theorem C5_late_alloc_no_capture (r : ReqData) (e : V2Env) :
    ((proxyV2 r e).fnameCalled = true →
      e.newReqErr = none ∧ e.doErr = none ∧ e.copyErr = none) ∧
    (∀ f ∈ (proxyV2 r e).createdFiles, f.2 = ([] : List Nat)) ∧
    ((proxyV2 r e).createdFiles = [] ∨
      ∃ p, (proxyV2 r e).createdFiles = [(p ++ ".request_headers", [])] ∧
        ∀ entry ∈ (proxyV2 r e).logs, entry.fnp = p) := by
  unfold proxyV2
  by_cases h1 : e.newReqErr.isSome
  · simp [h1, Option.isSome_iff_exists] at h1 ⊢
  · by_cases h2 : e.doErr.isSome
    · simp [h2, Option.not_isSome_iff_eq_none.mp h1] at h2 ⊢
    · by_cases h3 : e.copyErr.isSome
      · simp [h3, Option.not_isSome_iff_eq_none.mp h1,
          Option.not_isSome_iff_eq_none.mp h2] at h3 ⊢
      · have e1 := Option.not_isSome_iff_eq_none.mp h1
        have e2 := Option.not_isSome_iff_eq_none.mp h2
        have e3 := Option.not_isSome_iff_eq_none.mp h3
        cases ho : (fnameLoop e.fs e.datePrefix e.fuel 0).1 with
        | spin => simp [h1, h2, h3, ho, e1, e2, e3]
        | panicked er => simp [h1, h2, h3, ho, e1, e2, e3]
        | ioErr p er =>
          simp only [h1, h2, h3, ho, if_false, Bool.false_eq_true]
          refine ⟨fun _ => ⟨e1, e2, e3⟩, ?_, ?_⟩
          · intro f hf
            simp at hf
            simp [hf]
          · right
            exact ⟨p, rfl, by intro entry he; simp at he; simp [he]⟩
        | ok p =>
          simp only [h1, h2, h3, ho, if_false, Bool.false_eq_true]
          refine ⟨fun _ => ⟨e1, e2, e3⟩, ?_, ?_⟩
          · intro f hf
            simp at hf
            simp [hf]
          · right
            exact ⟨p, rfl, by intro entry he; simp at he; simp [he]⟩

/-- Environment for the C5 witness: everything succeeds, two bytes
copied. -/
def c5Env : V2Env := ⟨none, none, 200, 2, none, okFs, "d-", 1⟩

theorem C5_witness :
    c5Env.newReqErr = none ∧ c5Env.doErr = none ∧ c5Env.copyErr = none :=
  (C5_late_alloc_no_capture exReq c5Env).1 (by decide)

end Dumpproxy
